import Mathlib

/-
Verification of the bucketed time-series counter (timeseries.go,
package timeseries) against its natural-language specification.

The Go source is shallowly embedded as follows.

* Instants (`time.Time`) are integers: nanoseconds relative to the Unix
  epoch.  Go's `time.Time` stores seconds since January 1, year 1 plus a
  nanosecond field in [0, 1e9), so the total nanosecond count since the
  zero time is `t + zeroTimeOffNs` for our `t`.  `time.Time.Unix()`
  returns the (floored) second count relative to the Unix epoch, i.e.
  `t / 1e9` with Euclidean (= floor, for a positive divisor) division.
  `time.Time.Truncate(d)` rounds down to a multiple of `d` *since the
  zero time* (year 1), and returns `t` unchanged when `d ≤ 0`; this is
  `goTruncate` below.  `time.Time.After` is `>` and `time.Time.Add` is
  `+` on nanoseconds (int64 overflow is immaterial at the magnitudes the
  claims concern, so unbounded Int is used).
* Durations (`time.Duration`) are integer nanosecond counts.
  `int(d.Seconds())` (the argument the code passes to Expire) is modelled
  by `durSeconds`, truncation toward zero; this is exact whenever
  |d| < 2^53 ns, below the float64 rounding threshold.
* The `Redis` interface (the external ordered key-value store, per the
  spec an external collaborator accessed through exactly four
  primitives) is modelled by an explicit state: a counter map and a
  scored-set map, keyed by strings.  `ZADD` scores are `float64` holding
  the integer `t.Unix()`; they are modelled as exact integers (float64
  is exact on integers below 2^53).  Each primitive call is appended to
  a log, and a fault schedule `f : Nat → Bool` decides, per global call
  index, whether that call fails with a store error; on failure the
  store state is unchanged.  Expiry is a no-op on the store state (the
  passage of time and TTL eviction are not modelled; no claim concerns
  them), but the call and its possible error are logged — the Go code
  discards Expire's error, and so does the embedding.
* `fmt.Sprintf("%s:%d", s, n)` is `s ++ ":" ++ intRepr n`, where
  `intRepr` is the standard decimal rendering, defined here from
  scratch (fuel-structural, so it reduces definitionally).
* Go `int` values (amounts, counter values, counts) are unbounded Int;
  the `float64` returned by `Range` is the integer total (float64 is
  exact on these magnitudes).

Operations return the Go results: `IncreaseAtTime` returns the error
(`Option GoErr`, `none` = nil) and the post state; `Range` returns the
pair (total, error) and the post state.
-/

namespace TSModel

/-! ### Decimal rendering, a model of fmt's %d -/

/-- The decimal digit character for a value below ten (fmt indexes the
string "0123456789"; any argument at least 9 yields the last digit, but
the function is only applied to values below ten). -/
def digitChar : Nat → Char
  | 0 => '0' | 1 => '1' | 2 => '2' | 3 => '3' | 4 => '4'
  | 5 => '5' | 6 => '6' | 7 => '7' | 8 => '8' | _ => '9'

/-- Decimal digits of a natural number, most significant first.  The
fuel argument makes the recursion structural (never exhausted when
fuel exceeds the number, since n/10 shrinks faster than the fuel). -/
def natDigitsAux : Nat → Nat → List Char
  | 0, _ => []
  | fuel+1, n => if n < 10 then [digitChar n] else natDigitsAux fuel (n / 10) ++ [digitChar (n % 10)]

/-- Decimal rendering of a natural number. -/
def natRepr (n : Nat) : String := String.mk (natDigitsAux (n+1) n)

/-- Decimal rendering of an integer, as Go fmt's %d prints an int64. -/
def intRepr (i : Int) : String := if i < 0 then "-" ++ natRepr (-i).toNat else natRepr i.toNat

/-- Value of a digit string, used to invert the rendering. -/
def digitsVal (l : List Char) : Nat := l.foldl (fun a c => 10 * a + (c.toNat - 48)) 0

theorem digitChar_toNat {d : Nat} (h : d < 10) : (digitChar d).toNat - 48 = d := by
  interval_cases d <;> rfl

theorem digitChar_ne_dash (d : Nat) : digitChar d ≠ '-' := by
  match d with
  | 0 | 1 | 2 | 3 | 4 | 5 | 6 | 7 | 8 => decide
  | n+9 => exact (by decide : ('9' : Char) ≠ '-')

theorem mem_natDigitsAux {c : Char} : ∀ {fuel n : Nat}, c ∈ natDigitsAux fuel n → ∃ d, c = digitChar d := by
  intro fuel
  induction fuel with
  | zero => intro n h; simp [natDigitsAux] at h
  | succ fuel ih =>
    intro n h
    rw [natDigitsAux] at h
    by_cases h10 : n < 10
    · rw [if_pos h10] at h
      simp at h
      exact ⟨n, h⟩
    · rw [if_neg h10] at h
      rcases List.mem_append.mp h with h' | h'
      · exact ih h'
      · simp at h'
        exact ⟨n % 10, h'⟩

theorem natDigitsAux_foldl : ∀ fuel n : Nat, n < fuel → ∀ a : Nat,
    List.foldl (fun a c => 10 * a + (c.toNat - 48)) a (natDigitsAux fuel n)
      = a * 10 ^ (natDigitsAux fuel n).length + n := by
  intro fuel
  induction fuel with
  | zero => intro n h; omega
  | succ fuel ih =>
    intro n h a
    rw [natDigitsAux]
    by_cases h10 : n < 10
    · rw [if_pos h10]
      simp [digitChar_toNat h10]
      ring
    · rw [if_neg h10]
      have hdiv : n / 10 < fuel := by
        have h1 : n / 10 < n := Nat.div_lt_self (by omega) (by omega)
        omega
      rw [List.foldl_append, ih (n / 10) hdiv a]
      simp [digitChar_toNat (Nat.mod_lt n (by omega : 0 < 10))]
      have hq := Nat.div_add_mod n 10
      set L := (natDigitsAux fuel (n / 10)).length with hL
      set q := n / 10 with hqdef
      set r := n % 10 with hrdef
      rw [← hq, pow_succ]
      ring

theorem digitsVal_natDigitsAux {fuel n : Nat} (h : n < fuel) : digitsVal (natDigitsAux fuel n) = n := by
  unfold digitsVal
  rw [natDigitsAux_foldl fuel n h 0]
  simp

theorem natRepr_inj {a b : Nat} (h : natRepr a = natRepr b) : a = b := by
  have hd : natDigitsAux (a+1) a = natDigitsAux (b+1) b := congrArg String.data h
  have := digitsVal_natDigitsAux (Nat.lt_succ_self a)
  rw [hd, digitsVal_natDigitsAux (Nat.lt_succ_self b)] at this
  omega

theorem dash_not_mem_natRepr (n : Nat) : '-' ∉ (natRepr n).data := by
  intro h
  rcases mem_natDigitsAux h with ⟨d, hd⟩
  exact digitChar_ne_dash d hd.symm

/-! ### String plumbing -/

theorem string_data_append (a b : String) : (a ++ b).data = a.data ++ b.data := by
  cases a; cases b; rfl

theorem string_ext {a b : String} (h : a.data = b.data) : a = b := by
  cases a; cases b; exact congrArg String.mk h

theorem string_append_cancel_left {a b c : String} (h : a ++ b = a ++ c) : b = c := by
  apply string_ext
  have := congrArg String.data h
  rw [string_data_append, string_data_append] at this
  exact List.append_cancel_left this

theorem string_append_assoc (a b c : String) : a ++ b ++ c = a ++ (b ++ c) := by
  apply string_ext
  rw [string_data_append, string_data_append, string_data_append, string_data_append]
  exact List.append_assoc ..

theorem intRepr_inj {a b : Int} (h : intRepr a = intRepr b) : a = b := by
  unfold intRepr at h
  by_cases ha : a < 0 <;> by_cases hb : b < 0
  · rw [if_pos ha, if_pos hb] at h
    have hd := congrArg String.data h
    rw [string_data_append, string_data_append] at hd
    have h2 : (natRepr (-a).toNat).data = (natRepr (-b).toNat).data :=
      List.append_cancel_left hd
    have := natRepr_inj (string_ext h2)
    omega
  · rw [if_pos ha, if_neg hb] at h
    exfalso
    apply dash_not_mem_natRepr b.toNat
    have hd := congrArg String.data h
    rw [string_data_append] at hd
    exact hd ▸ List.mem_append_left _ (show '-' ∈ "-".data by decide)
  · rw [if_neg ha, if_pos hb] at h
    exfalso
    apply dash_not_mem_natRepr a.toNat
    have hd := congrArg String.data h
    rw [string_data_append] at hd
    exact hd.symm ▸ List.mem_append_left _ (show '-' ∈ "-".data by decide)
  · rw [if_neg ha, if_neg hb] at h
    have := natRepr_inj h
    omega

/-! ### Time: Go's time package on integer nanoseconds -/

/-- Nanoseconds per second. -/
def nsPerSec : Int := 1000000000

/-- Nanoseconds from Go's zero time (January 1, year 1 UTC) to the Unix
epoch: 62135596800 seconds (Go's unixToInternal constant). -/
def zeroTimeOffNs : Int := 62135596800 * 1000000000

/-- t.Unix(): floored seconds relative to the Unix epoch. -/
def goUnix (t : Int) : Int := t / nsPerSec

/-- t.Truncate(d): round down to a multiple of d since the zero time;
the identity when d ≤ 0 (Go documents this case). -/
def goTruncate (d t : Int) : Int := if d ≤ 0 then t else t - (t + zeroTimeOffNs) % d

/-- int(d.Seconds()): whole seconds of a duration, truncated toward
zero (exact below the float64 threshold of 2^53 ns). -/
def durSeconds (d : Int) : Int := Int.tdiv d nsPerSec

theorem goTruncate_le {d : Int} (hd : 0 < d) (t : Int) : goTruncate d t ≤ t := by
  unfold goTruncate
  rw [if_neg (by omega)]
  have := Int.emod_nonneg (t + zeroTimeOffNs) (by omega : d ≠ 0)
  omega

theorem lt_goTruncate_add {d : Int} (hd : 0 < d) (t : Int) : t < goTruncate d t + d := by
  unfold goTruncate
  rw [if_neg (by omega)]
  have := Int.emod_lt_of_pos (t + zeroTimeOffNs) hd
  omega

theorem goTruncate_dvd {d : Int} (hd : 0 < d) (t : Int) : d ∣ (goTruncate d t + zeroTimeOffNs) := by
  unfold goTruncate
  rw [if_neg (by omega)]
  have h := Int.emod_def (t + zeroTimeOffNs) d
  refine ⟨(t + zeroTimeOffNs) / d, by omega⟩

theorem goTruncate_of_dvd {d : Int} (hd : 0 < d) {b : Int} (h : d ∣ (b + zeroTimeOffNs)) :
    goTruncate d b = b := by
  unfold goTruncate
  rw [if_neg (by omega)]
  rw [Int.emod_eq_zero_of_dvd h]
  omega

theorem goTruncate_goTruncate {d : Int} (hd : 0 < d) (t : Int) :
    goTruncate d (goTruncate d t) = goTruncate d t :=
  goTruncate_of_dvd hd (goTruncate_dvd hd t)

theorem goTruncate_add_step {d : Int} (hd : 0 < d) {b : Int} (h : d ∣ (b + zeroTimeOffNs)) :
    goTruncate d (b + d) = b + d := by
  apply goTruncate_of_dvd hd
  have : b + d + zeroTimeOffNs = (b + zeroTimeOffNs) + d := by ring
  rw [this]
  exact Int.dvd_add h ⟨1, by ring⟩

theorem goTruncate_eq_mul {d : Int} (hd : 0 < d) (t : Int) :
    goTruncate d t = d * ((t + zeroTimeOffNs) / d) - zeroTimeOffNs := by
  unfold goTruncate
  rw [if_neg (by omega)]
  have h := Int.emod_def (t + zeroTimeOffNs) d
  omega

theorem goUnix_mono {a b : Int} (h : a ≤ b) : goUnix a ≤ goUnix b :=
  Int.ediv_le_ediv (by unfold nsPerSec; omega) h

/-! ### The store: state, call log, fault schedule -/

/-- A store primitive invocation, as recorded in the call log. -/
inductive Call where
  | incr (key : String)
  | zadd (key : String) (score : Int) (member : String)
  | zcount (key : String) (lo hi : Int)
  | expire (key : String) (seconds : Int)
deriving DecidableEq, Repr

/-- Errors surfaced by the embedded operations: the invalid-range error
(ErrBadRange) or a store error, identified by the global index and the
call that failed (the spec: store errors are propagated verbatim). -/
inductive GoErr where
  | badRange
  | storeFail (idx : Nat) (c : Call)
deriving DecidableEq, Repr

/-- The external store's state: per-key integer counters (absent keys
read 0, per the increment contract) and per-key scored sets, kept as
lists of (score, member) pairs. -/
structure Store where
  counters : String → Int
  series : String → List (Int × String)

/-- Store state plus the chronological log of primitive calls issued. -/
structure RedisState where
  store : Store
  log : List Call

/-- The initial state: empty store, no calls issued. -/
def initState : RedisState :=
  { store := { counters := fun _ => 0, series := fun _ => [] }, log := [] }

/-- ZADD on one scored set: if the member exists its score is updated,
otherwise the pair is added (the spec's add-scored-member contract). -/
def zaddList (score : Int) (member : String) : List (Int × String) → List (Int × String)
  | [] => [(score, member)]
  | e :: rest => if e.2 = member then (score, member) :: rest else e :: zaddList score member rest

/-- ZCOUNT on one scored set: members with score in [lo, hi], both ends
inclusive (the spec's count-in-score-range contract). -/
def zcountList (lo hi : Int) (l : List (Int × String)) : Int :=
  ((l.filter fun e => decide (lo ≤ e.1) && decide (e.1 ≤ hi)).length : Int)

/-- Incr: atomically increment the counter at a key, returning the new
value; under a scheduled fault, the error and an unchanged store. -/
def callIncr (f : Nat → Bool) (key : String) (st : RedisState) : Except GoErr Int × RedisState :=
  let idx := st.log.length
  if f idx then
    (Except.error (GoErr.storeFail idx (Call.incr key)), { st with log := st.log ++ [Call.incr key] })
  else
    (Except.ok (st.store.counters key + 1),
     { store := { st.store with
                  counters := Function.update st.store.counters key (st.store.counters key + 1) },
       log := st.log ++ [Call.incr key] })

/-- ZAdd: add a scored member at a key. -/
def callZAdd (f : Nat → Bool) (key : String) (score : Int) (member : String) (st : RedisState) :
    Except GoErr Unit × RedisState :=
  let idx := st.log.length
  if f idx then
    (Except.error (GoErr.storeFail idx (Call.zadd key score member)),
     { st with log := st.log ++ [Call.zadd key score member] })
  else
    (Except.ok (),
     { store := { st.store with
                  series := Function.update st.store.series key
                              (zaddList score member (st.store.series key)) },
       log := st.log ++ [Call.zadd key score member] })

/-- ZCount: count scored members in an inclusive range; read-only. -/
def callZCount (f : Nat → Bool) (key : String) (lo hi : Int) (st : RedisState) :
    Except GoErr Int × RedisState :=
  let idx := st.log.length
  if f idx then
    (Except.error (GoErr.storeFail idx (Call.zcount key lo hi)),
     { st with log := st.log ++ [Call.zcount key lo hi] })
  else
    (Except.ok (zcountList lo hi (st.store.series key)),
     { st with log := st.log ++ [Call.zcount key lo hi] })

/-- Expire: refresh a key's TTL.  TTL bookkeeping is not part of the
modelled state, so the call only logs (and may fail; the Go caller
discards the result either way). -/
def callExpire (f : Nat → Bool) (key : String) (secs : Int) (st : RedisState) :
    Except GoErr Unit × RedisState :=
  let idx := st.log.length
  ((if f idx then Except.error (GoErr.storeFail idx (Call.expire key secs)) else Except.ok ()),
   { st with log := st.log ++ [Call.expire key secs] })

/-! ### The TimeSeries component (timeseries.go) -/

/-- The TimeSeries struct: base name, the two derived key prefixes, the
bucket width and the retention, both in nanoseconds.  The redis handle
is not a field here; the store state and fault schedule are passed to
each operation explicitly. -/
structure TimeSeries where
  name : String
  seriesKey : String
  counterKey : String
  timestep : Int
  ttl : Int

/-- NewTimeSeries: seriesKey = "<name>:ts", counterKey = "<name>:counter". -/
def NewTimeSeries (name : String) (timestep ttl : Int) : TimeSeries :=
  { name := name
    seriesKey := name ++ ":ts"
    counterKey := name ++ ":counter"
    timestep := timestep
    ttl := ttl }

/-- makeKey: Sprintf("%s:%d", pfx, t.Truncate(ts.timestep).Unix()). -/
def makeKey (ts : TimeSeries) (pfx : String) (t : Int) : String :=
  pfx ++ ":" ++ intRepr (goUnix (goTruncate ts.timestep t))

/-- The body of IncreaseAtTime's for loop, with the iteration count as
fuel (the Go loop runs exactly `amount` iterations absent an early
return).  Per iteration: Incr on the counter key, Expire on it (result
discarded), return on Incr error, ZAdd of "<name>:<id>" scored by
t.Unix() on the series key, return on error, Expire on the series key
(result discarded). -/
def increaseLoop (ts : TimeSeries) (f : Nat → Bool) (t : Int) : Nat → RedisState → Option GoErr × RedisState
  | 0, st => (none, st)
  | n+1, st =>
    let ck := makeKey ts ts.counterKey t
    match callIncr f ck st with
    | (rid, st1) =>
      match callExpire f ck (durSeconds ts.ttl) st1 with
      | (_, st2) =>
        match rid with
        | Except.error e => (some e, st2)
        | Except.ok id =>
          let sk := makeKey ts ts.seriesKey t
          match callZAdd f sk (goUnix t) (ts.name ++ ":" ++ intRepr id) st2 with
          | (Except.error e, st3) => (some e, st3)
          | (Except.ok _, st3) =>
            match callExpire f sk (durSeconds ts.ttl) st3 with
            | (_, st4) => increaseLoop ts f t n st4

/-- IncreaseAtTime adds amount at a specific time (Go: `for i := 0;
i < amount; i++`, so a non-positive amount runs zero iterations). -/
def IncreaseAtTime (ts : TimeSeries) (f : Nat → Bool) (amount : Int) (t : Int) (st : RedisState) :
    Option GoErr × RedisState :=
  increaseLoop ts f t amount.toNat st

/-- Range's loop: ZCount the current bucket's series key over
[start.Unix(), end.Unix()], abort with (0, err) on error, accumulate,
advance current by one timestep, stop once current is after end.  Fuel
bounds the iteration count; the natural exit is the in-loop check, and
`Range` passes fuel that is never exhausted when the timestep is
positive (with a non-positive timestep the Go loop never terminates). -/
def rangeLoop (ts : TimeSeries) (f : Nat → Bool) (startT endT : Int) :
    Nat → Int → Int → RedisState → (Int × Option GoErr) × RedisState
  | 0, _, total, st => ((total, none), st)
  | fuel+1, current, total, st =>
    match callZCount f (makeKey ts ts.seriesKey current) (goUnix startT) (goUnix endT) st with
    | (Except.error e, st1) => ((0, some e), st1)
    | (Except.ok count, st1) =>
      if current + ts.timestep > endT then ((total + count, none), st1)
      else rangeLoop ts f startT endT fuel (current + ts.timestep) (total + count) st1

/-- Range returns the sum over the given range; ErrBadRange if start is
after end.  The loop starts at start truncated to the bucket width. -/
def Range (ts : TimeSeries) (f : Nat → Bool) (startT endT : Int) (st : RedisState) :
    (Int × Option GoErr) × RedisState :=
  if endT < startT then ((0, some GoErr.badRange), st)
  else
    rangeLoop ts f startT endT (((endT - goTruncate ts.timestep startT) / ts.timestep).toNat + 1)
      (goTruncate ts.timestep startT) 0 st

/-- The fault-free schedule: every store call succeeds. -/
def noFault : Nat → Bool := fun _ => false

/-- Modelled from the spec's words (the key naming contract): the
claimed bucket timestamp, "the Unix-seconds timestamp of the instant
truncated down to the nearest multiple of the bucket width (in
seconds)", i.e. floor(u / wSec) * wSec for the Unix-seconds value u.
Kept for comparison against what the code computes. -/
def specBucketSeconds (wSec u : Int) : Int := wSec * (u / wSec)

/-! ### Characterising fault-free runs of IncreaseAtTime -/

/-- The state transform of one fault-free loop iteration of
IncreaseAtTime at instant t: counter incremented, member
"<name>:<id>" added with score t.Unix(), the four calls logged. -/
def goodStep (ts : TimeSeries) (t : Int) (st : RedisState) : RedisState :=
  { store := { counters := Function.update st.store.counters (makeKey ts ts.counterKey t)
                 (st.store.counters (makeKey ts ts.counterKey t) + 1)
               series := Function.update st.store.series (makeKey ts ts.seriesKey t)
                 (zaddList (goUnix t)
                   (ts.name ++ ":" ++ intRepr (st.store.counters (makeKey ts ts.counterKey t) + 1))
                   (st.store.series (makeKey ts ts.seriesKey t))) }
    log := st.log ++
      [Call.incr (makeKey ts ts.counterKey t),
       Call.expire (makeKey ts ts.counterKey t) (durSeconds ts.ttl),
       Call.zadd (makeKey ts ts.seriesKey t) (goUnix t)
         (ts.name ++ ":" ++ intRepr (st.store.counters (makeKey ts ts.counterKey t) + 1)),
       Call.expire (makeKey ts ts.seriesKey t) (durSeconds ts.ttl)] }

/-- m fault-free iterations. -/
def goodSteps (ts : TimeSeries) (t : Int) : Nat → RedisState → RedisState
  | 0, st => st
  | m+1, st => goodSteps ts t m (goodStep ts t st)

/-- The calls issued by m fault-free iterations when the counter starts
at c: per unit, Incr and Expire on the counter key, then ZAdd of the
fresh member and Expire on the series key. -/
def unitCalls (ck sk nm : String) (u secs : Int) : Int → Nat → List Call
  | _, 0 => []
  | c, m+1 =>
    Call.incr ck :: Call.expire ck secs ::
    Call.zadd sk u (nm ++ ":" ++ intRepr (c+1)) :: Call.expire sk secs ::
    unitCalls ck sk nm u secs (c+1) m

/-- The scored-set entries produced by m fresh recordings at score u
when the counter starts at c: members "<nm>:<c+1>" … "<nm>:<c+m>". -/
def recordEntries (nm : String) (u : Int) : Int → Nat → List (Int × String)
  | _, 0 => []
  | c, m+1 => (u, nm ++ ":" ++ intRepr (c+1)) :: recordEntries nm u (c+1) m

/-- m successive ZADDs of the members "<nm>:<c+1>" … "<nm>:<c+m>" at
score u (the series-key transform of m iterations). -/
def zaddN (nm : String) (u : Int) : Int → Nat → List (Int × String) → List (Int × String)
  | _, 0, l => l
  | c, m+1, l => zaddN nm u (c+1) m (zaddList u (nm ++ ":" ++ intRepr (c+1)) l)

/-- Recognises ZAdd entries in the call log. -/
def isZAdd : Call → Bool
  | Call.zadd _ _ _ => true
  | _ => false

theorem unitCalls_length (ck sk nm : String) (u secs : Int) :
    ∀ (m : Nat) (c : Int), (unitCalls ck sk nm u secs c m).length = 4 * m := by
  intro m
  induction m with
  | zero => intro c; rfl
  | succ m ih =>
    intro c
    rw [unitCalls]
    simp [ih (c+1)]
    omega

theorem unitCalls_countZAdd (ck sk nm : String) (u secs : Int) :
    ∀ (m : Nat) (c : Int), (unitCalls ck sk nm u secs c m).countP isZAdd = m := by
  intro m
  induction m with
  | zero => intro c; rfl
  | succ m ih =>
    intro c
    rw [unitCalls]
    simp [List.countP_cons, isZAdd, ih (c+1)]

theorem goodStep_log_length (ts : TimeSeries) (t : Int) (st : RedisState) :
    (goodStep ts t st).log.length = st.log.length + 4 := by
  simp [goodStep]

theorem member_ne_of_id_ne {nm : String} {i j : Int} (h : i ≠ j) :
    nm ++ ":" ++ intRepr i ≠ nm ++ ":" ++ intRepr j := by
  intro he
  exact h (intRepr_inj (string_append_cancel_left he))

theorem zaddList_fresh {member : String} (score : Int) :
    ∀ {l : List (Int × String)}, (∀ e ∈ l, e.2 ≠ member) →
    zaddList score member l = l ++ [(score, member)] := by
  intro l
  induction l with
  | nil => intro _; rfl
  | cons e rest ih =>
    intro h
    rw [zaddList]
    rw [if_neg (h e (List.mem_cons_self e rest))]
    rw [ih fun e' he' => h e' (List.mem_cons_of_mem e he')]
    rfl

theorem zaddN_fresh (nm : String) (u : Int) :
    ∀ (m : Nat) (c : Int) (l : List (Int × String)),
    (∀ e ∈ l, ∀ j : Int, c < j → e.2 ≠ nm ++ ":" ++ intRepr j) →
    zaddN nm u c m l = l ++ recordEntries nm u c m := by
  intro m
  induction m with
  | zero => intro c l _; simp [zaddN, recordEntries]
  | succ m ih =>
    intro c l h
    rw [zaddN, recordEntries]
    rw [zaddList_fresh u fun e he => h e he (c+1) (by omega)]
    rw [ih (c+1) (l ++ [(u, nm ++ ":" ++ intRepr (c+1))]) ?_]
    · rw [List.append_assoc]
      rfl
    · intro e he j hj
      rcases List.mem_append.mp he with h' | h'
      · exact h e h' j (by omega)
      · simp at h'
        rw [h']
        exact member_ne_of_id_ne (by omega)

theorem mem_recordEntries {nm : String} {u : Int} :
    ∀ {m : Nat} {c : Int} {s : String},
    s ∈ (recordEntries nm u c m).map Prod.snd →
    ∃ j : Int, c < j ∧ j ≤ c + m ∧ s = nm ++ ":" ++ intRepr j := by
  intro m
  induction m with
  | zero => intro c s h; simp [recordEntries] at h
  | succ m ih =>
    intro c s h
    rw [recordEntries] at h
    simp only [List.map_cons, List.mem_cons] at h
    rcases h with h | h
    · exact ⟨c + 1, by omega, by omega, h⟩
    · rcases ih h with ⟨j, hj1, hj2, hj3⟩
      exact ⟨j, by omega, by omega, hj3⟩

theorem zcountList_nonneg (lo hi : Int) (l : List (Int × String)) : 0 ≤ zcountList lo hi l :=
  Int.natCast_nonneg _

theorem zcountList_recordEntries {lo hi u : Int} (h1 : lo ≤ u) (h2 : u ≤ hi) (nm : String) :
    ∀ (m : Nat) (c : Int), zcountList lo hi (recordEntries nm u c m) = (m : Int) := by
  intro m
  induction m with
  | zero => intro c; rfl
  | succ m ih =>
    intro c
    rw [recordEntries]
    unfold zcountList at ih ⊢
    rw [List.filter_cons]
    simp only [decide_eq_true h1, decide_eq_true h2, Bool.and_self, if_pos]
    simp only [List.length_cons]
    rw [Nat.cast_succ]
    have := ih (c+1)
    omega

/-- One loop iteration of IncreaseAtTime under a schedule that lets its
four calls succeed is exactly `goodStep`. -/
theorem increaseLoop_succ_noFault (ts : TimeSeries) (f : Nat → Bool) (t : Int) (n : Nat)
    (st : RedisState)
    (h0 : f st.log.length = false) (h1 : f (st.log.length + 1) = false)
    (h2 : f (st.log.length + 2) = false) (h3 : f (st.log.length + 3) = false) :
    increaseLoop ts f t (n+1) st = increaseLoop ts f t n (goodStep ts t st) := by
  rw [increaseLoop]
  simp only [callIncr, callExpire, callZAdd, List.length_append, List.length_cons,
    List.length_nil, Nat.add_zero, h0, h1, h2, h3, Bool.false_eq_true, if_false,
    goodStep, List.append_assoc, List.cons_append, List.nil_append]

/-- Running m + r iterations under a schedule whose first 4m answers
(from the current log position) are fault-free first performs the m
good steps. -/
theorem increaseLoop_split (ts : TimeSeries) (f : Nat → Bool) (t : Int) :
    ∀ (m r : Nat) (st : RedisState),
    (∀ j, j < 4 * m → f (st.log.length + j) = false) →
    increaseLoop ts f t (m + r) st = increaseLoop ts f t r (goodSteps ts t m st) := by
  intro m
  induction m with
  | zero => intro r st _; rw [Nat.zero_add]; rfl
  | succ m ih =>
    intro r st hf
    rw [show m + 1 + r = (m + r) + 1 by omega]
    rw [increaseLoop_succ_noFault ts f t (m + r) st
      (by have := hf 0 (by omega); simpa using this)
      (hf 1 (by omega)) (hf 2 (by omega)) (hf 3 (by omega))]
    rw [ih r (goodStep ts t st) ?_]
    · rfl
    · intro j hj
      rw [goodStep_log_length]
      have := hf (4 + j) (by omega)
      rw [show st.log.length + 4 + j = st.log.length + (4 + j) by omega]
      exact this

/-- A fault-free run of m iterations succeeds and performs the m good
steps. -/
theorem increaseLoop_noFault_eq (ts : TimeSeries) (f : Nat → Bool) (t : Int) (m : Nat)
    (st : RedisState) (hf : ∀ j, j < 4 * m → f (st.log.length + j) = false) :
    increaseLoop ts f t m st = (none, goodSteps ts t m st) := by
  have h := increaseLoop_split ts f t m 0 st hf
  rw [Nat.add_zero] at h
  rw [h]
  rfl

theorem goodSteps_log (ts : TimeSeries) (t : Int) :
    ∀ (m : Nat) (st : RedisState),
    (goodSteps ts t m st).log =
      st.log ++ unitCalls (makeKey ts ts.counterKey t) (makeKey ts ts.seriesKey t) ts.name
        (goUnix t) (durSeconds ts.ttl) (st.store.counters (makeKey ts ts.counterKey t)) m := by
  intro m
  induction m with
  | zero => intro st; simp [goodSteps, unitCalls]
  | succ m ih =>
    intro st
    rw [goodSteps, ih (goodStep ts t st)]
    show (goodStep ts t st).log ++ _ = _
    rw [unitCalls]
    simp only [goodStep, Function.update_same]
    rw [List.append_assoc]
    rfl

theorem goodSteps_counters_self (ts : TimeSeries) (t : Int) :
    ∀ (m : Nat) (st : RedisState),
    (goodSteps ts t m st).store.counters (makeKey ts ts.counterKey t) =
      st.store.counters (makeKey ts ts.counterKey t) + m := by
  intro m
  induction m with
  | zero => intro st; simp [goodSteps]
  | succ m ih =>
    intro st
    rw [goodSteps, ih (goodStep ts t st)]
    show (Function.update st.store.counters _ _) _ + _ = _
    rw [Function.update_same]
    push_cast
    ring

theorem goodSteps_counters_ne (ts : TimeSeries) (t : Int) {k : String}
    (hk : k ≠ makeKey ts ts.counterKey t) :
    ∀ (m : Nat) (st : RedisState),
    (goodSteps ts t m st).store.counters k = st.store.counters k := by
  intro m
  induction m with
  | zero => intro st; rfl
  | succ m ih =>
    intro st
    rw [goodSteps, ih (goodStep ts t st)]
    show (Function.update st.store.counters _ _) _ = _
    rw [Function.update_noteq hk]

theorem goodSteps_series_self (ts : TimeSeries) (t : Int) :
    ∀ (m : Nat) (st : RedisState),
    (goodSteps ts t m st).store.series (makeKey ts ts.seriesKey t) =
      zaddN ts.name (goUnix t) (st.store.counters (makeKey ts ts.counterKey t)) m
        (st.store.series (makeKey ts ts.seriesKey t)) := by
  intro m
  induction m with
  | zero => intro st; rfl
  | succ m ih =>
    intro st
    rw [goodSteps, ih (goodStep ts t st)]
    show zaddN _ _ ((Function.update st.store.counters _ _) _) m
        ((Function.update st.store.series _ _) _) = _
    rw [Function.update_same, Function.update_same]
    rfl

theorem goodSteps_series_ne (ts : TimeSeries) (t : Int) {k : String}
    (hk : k ≠ makeKey ts ts.seriesKey t) :
    ∀ (m : Nat) (st : RedisState),
    (goodSteps ts t m st).store.series k = st.store.series k := by
  intro m
  induction m with
  | zero => intro st; rfl
  | succ m ih =>
    intro st
    rw [goodSteps, ih (goodStep ts t st)]
    show (Function.update st.store.series _ _) _ = _
    rw [Function.update_noteq hk]

/-! ### Range helpers -/

theorem makeKey_goTruncate (ts : TimeSeries) (pfx : String) (t : Int) :
    makeKey ts pfx (goTruncate ts.timestep t) = makeKey ts pfx t := by
  unfold makeKey
  by_cases h : ts.timestep ≤ 0
  · simp [goTruncate, if_pos h]
  · rw [goTruncate_goTruncate (by omega)]

theorem makeKey_ne_of_sec_ne (ts : TimeSeries) (pfx : String) {t1 t2 : Int}
    (h : goUnix (goTruncate ts.timestep t1) ≠ goUnix (goTruncate ts.timestep t2)) :
    makeKey ts pfx t1 ≠ makeKey ts pfx t2 := by
  intro he
  exact h (intRepr_inj (string_append_cancel_left he))

/-- One iteration of Range's loop under a fault-free answer for the
count query. -/
theorem rangeLoop_succ (ts : TimeSeries) (f : Nat → Bool) (startT endT : Int) (fuel : Nat)
    (current total : Int) (st : RedisState) (hf : f st.log.length = false) :
    rangeLoop ts f startT endT (fuel+1) current total st =
      if current + ts.timestep > endT then
        ((total + zcountList (goUnix startT) (goUnix endT)
            (st.store.series (makeKey ts ts.seriesKey current)), none),
         { st with log := st.log ++
             [Call.zcount (makeKey ts ts.seriesKey current) (goUnix startT) (goUnix endT)] })
      else
        rangeLoop ts f startT endT fuel (current + ts.timestep)
          (total + zcountList (goUnix startT) (goUnix endT)
            (st.store.series (makeKey ts ts.seriesKey current)))
          { st with log := st.log ++
              [Call.zcount (makeKey ts ts.seriesKey current) (goUnix startT) (goUnix endT)] } := by
  rw [rangeLoop]
  simp only [callZCount, hf, Bool.false_eq_true, if_false]

theorem counterKey_makeKey (nm : String) (w ttl t : Int) :
    makeKey (NewTimeSeries nm w ttl) (NewTimeSeries nm w ttl).counterKey t =
      nm ++ ":counter:" ++ intRepr (goUnix (goTruncate w t)) := by
  show (nm ++ ":counter") ++ ":" ++ intRepr (goUnix (goTruncate w t)) = _
  congr 1
  rw [string_append_assoc]
  congr 1

theorem seriesKey_makeKey (nm : String) (w ttl t : Int) :
    makeKey (NewTimeSeries nm w ttl) (NewTimeSeries nm w ttl).seriesKey t =
      nm ++ ":ts:" ++ intRepr (goUnix (goTruncate w t)) := by
  show (nm ++ ":ts") ++ ":" ++ intRepr (goUnix (goTruncate w t)) = _
  congr 1
  rw [string_append_assoc]
  congr 1

/-- If a run of Range's loop reports an error, the accumulated-total
component of the result is 0, the error is the store failure of a count
query with the range's own bounds, and that query is the last call in
the log (the loop stopped right there). -/
theorem rangeLoop_err (ts : TimeSeries) (f : Nat → Bool) (startT endT : Int) :
    ∀ (fuel : Nat) (current total : Int) (st : RedisState) (e : GoErr),
    (rangeLoop ts f startT endT fuel current total st).1.2 = some e →
    (rangeLoop ts f startT endT fuel current total st).1.1 = 0 ∧
    ∃ key : String,
      e = GoErr.storeFail ((rangeLoop ts f startT endT fuel current total st).2.log.length - 1)
            (Call.zcount key (goUnix startT) (goUnix endT)) ∧
      (rangeLoop ts f startT endT fuel current total st).2.log.getLast? =
        some (Call.zcount key (goUnix startT) (goUnix endT)) := by
  intro fuel
  induction fuel with
  | zero =>
    intro current total st e hp
    rw [rangeLoop] at hp
    simp at hp
  | succ fuel ih =>
    intro current total st e hp
    rw [rangeLoop] at hp ⊢
    by_cases hft : f st.log.length
    · simp only [callZCount, hft, if_true] at hp ⊢
      have he : GoErr.storeFail st.log.length
          (Call.zcount (makeKey ts ts.seriesKey current) (goUnix startT) (goUnix endT)) = e := by
        simpa using hp
      refine ⟨by simp, makeKey ts ts.seriesKey current, ?_, ?_⟩
      · rw [← he]
        simp
      · simp [List.getLast?_concat]
    · simp only [callZCount, hft, Bool.false_eq_true, if_false] at hp ⊢
      by_cases hc : current + ts.timestep > endT
      · rw [if_pos hc] at hp
        simp at hp
      · rw [if_neg hc] at hp ⊢
        exact ih (current + ts.timestep) _ _ e hp

end TSModel

namespace TSModel

/-! ### The claims -/

/-- Claim C5: for every pair of instants with start strictly after end,
Range(start, end) fails with the invalid-range error (ErrBadRange) and
returns total 0, making no store calls: the state — including the call
log — is returned unchanged. -/
theorem range_invalid_range (ts : TimeSeries) (f : Nat → Bool) (startT endT : Int)
    (st : RedisState) (h : endT < startT) :
    Range ts f startT endT st = ((0, some GoErr.badRange), st) := by
  rw [Range, if_pos h]

/-- Witness: range_invalid_range applied at concrete inputs. -/
theorem range_invalid_range_witness :
    (0 : Int) < 1 ∧
    Range (NewTimeSeries "x" 1000000000 0) noFault 1 0 initState =
      ((0, some GoErr.badRange), initState) :=
  ⟨by decide,
   range_invalid_range (NewTimeSeries "x" 1000000000 0) noFault 1 0 initState (by decide)⟩

/-- Claim C9: IncreaseAtTime with amount 0 performs zero loop
iterations — no store calls (state and log unchanged) and no error. -/
theorem increase_zero_amount (ts : TimeSeries) (f : Nat → Bool) (t : Int) (st : RedisState) :
    IncreaseAtTime ts f 0 t st = (none, st) := rfl

/-- Claim C10: a strictly negative amount makes no store calls and
returns nil — silently treated like zero, not rejected with an error. -/
theorem increase_negative_amount (ts : TimeSeries) (f : Nat → Bool) {amount : Int} (t : Int)
    (st : RedisState) (h : amount < 0) :
    IncreaseAtTime ts f amount t st = (none, st) := by
  rw [IncreaseAtTime, Int.toNat_of_nonpos (by omega)]
  rfl

/-- Witness: increase_negative_amount applied at concrete inputs. -/
theorem increase_negative_amount_witness :
    (-5 : Int) < 0 ∧
    IncreaseAtTime (NewTimeSeries "x" 1000000000 0) noFault (-5) 0 initState =
      (none, initState) :=
  ⟨by decide,
   increase_negative_amount (NewTimeSeries "x" 1000000000 0) noFault 0 initState (by decide)⟩

/-- Claim C8: for start ≤ end, whenever Range reports an error, the
returned total is exactly 0 (no partial sum), the error is the store
failure of a per-bucket count query with the range's bounds, and that
failing query is the last call issued (the loop aborted immediately). -/
theorem range_query_error (ts : TimeSeries) (f : Nat → Bool) (startT endT : Int)
    (st : RedisState) (x : Int) (e : GoErr) (hse : startT ≤ endT)
    (h : (Range ts f startT endT st).1 = (x, some e)) :
    x = 0 ∧ ∃ key : String,
      e = GoErr.storeFail ((Range ts f startT endT st).2.log.length - 1)
            (Call.zcount key (goUnix startT) (goUnix endT)) ∧
      (Range ts f startT endT st).2.log.getLast? =
        some (Call.zcount key (goUnix startT) (goUnix endT)) := by
  rw [Range, if_neg (by omega)] at h ⊢
  have h2 := congrArg Prod.snd h
  have h1 := congrArg Prod.fst h
  simp only at h1 h2
  have hmain := rangeLoop_err ts f startT endT _ _ _ _ e h2
  exact ⟨by rw [← h1, hmain.1], hmain.2⟩

/-- Witness: range_query_error applied at concrete inputs (the count
query on the single bucket of a degenerate range fails). -/
theorem range_query_error_witness :
    (0 : Int) ≤ 0 ∧
    (Range (NewTimeSeries "x" 1000000000 0) (fun _ => true) 0 0 initState).1 =
      (0, some (GoErr.storeFail 0 (Call.zcount "x:ts:0" 0 0))) ∧
    ((0 : Int) = 0 ∧ ∃ key : String,
      GoErr.storeFail 0 (Call.zcount "x:ts:0" 0 0) =
        GoErr.storeFail
          ((Range (NewTimeSeries "x" 1000000000 0) (fun _ => true) 0 0 initState).2.log.length - 1)
          (Call.zcount key (goUnix 0) (goUnix 0)) ∧
      (Range (NewTimeSeries "x" 1000000000 0) (fun _ => true) 0 0 initState).2.log.getLast? =
        some (Call.zcount key (goUnix 0) (goUnix 0))) :=
  ⟨by decide, by decide,
   range_query_error (NewTimeSeries "x" 1000000000 0) (fun _ => true) 0 0 initState 0
     (GoErr.storeFail 0 (Call.zcount "x:ts:0" 0 0)) (by decide) (by decide)⟩

/-- Claim C2, counterexample: with name "x", a 7-second bucket width
and the instant t = 0 (Unix epoch), the first store call of a
recording writes the counter key "x:counter:-4", because Go's Truncate
rounds down to a multiple of the width since the zero time (year 1),
whose offset to the Unix epoch, 62135596800 s, is ≡ 4 (mod 7).  The
claim's bucket value — 0, the Unix timestamp truncated to a multiple of
the width — yields "x:counter:0", a different key. -/
theorem key_naming_cex :
    (IncreaseAtTime (NewTimeSeries "x" 7000000000 0) noFault 1 0 initState).2.log.head? =
        some (Call.incr "x:counter:-4") ∧
      "x:counter:-4" ≠ "x" ++ ":counter:" ++ intRepr (specBucketSeconds 7 (goUnix 0)) := by
  constructor
  · decide
  · decide

/-- Claim C2 (amended): the keys written by a recording at instant t
are "<name>:counter:<b>", "<name>:ts:<b>" and the series member is
"<name>:<counterValue>", where b is t's Unix-seconds timestamp of the
bucket obtained by rounding t down to a multiple of the bucket width
measured from Go's zero time (year 1), not from the Unix epoch (the
two coincide exactly when the width divides 62135596800 s).  Stated on
the call log of a single-unit recording from an arbitrary state: the
four calls use exactly these keys, and the member carries the fresh
counter value. -/
theorem key_naming (nm : String) (w ttl t : Int) (st : RedisState) :
    (IncreaseAtTime (NewTimeSeries nm w ttl) noFault 1 t st).2.log =
      st.log ++
        [Call.incr (nm ++ ":counter:" ++ intRepr (goUnix (goTruncate w t))),
         Call.expire (nm ++ ":counter:" ++ intRepr (goUnix (goTruncate w t))) (durSeconds ttl),
         Call.zadd (nm ++ ":ts:" ++ intRepr (goUnix (goTruncate w t))) (goUnix t)
           (nm ++ ":" ++ intRepr (st.store.counters
              (nm ++ ":counter:" ++ intRepr (goUnix (goTruncate w t))) + 1)),
         Call.expire (nm ++ ":ts:" ++ intRepr (goUnix (goTruncate w t))) (durSeconds ttl)] := by
  have hrun := increaseLoop_noFault_eq (NewTimeSeries nm w ttl) noFault t 1 st
    (fun j _ => rfl)
  rw [IncreaseAtTime]
  show (increaseLoop (NewTimeSeries nm w ttl) noFault t 1 st).2.log = _
  rw [hrun]
  show (goodStep (NewTimeSeries nm w ttl) t st).log = _
  rw [goodStep]
  rw [counterKey_makeKey, seriesKey_makeKey]
  rfl

/-- Claim C3, counterexample: with a 7-second bucket width, the
instants t1 = 2 s and t2 = 3 s satisfy floor(t1/width) = floor(t2/width)
(both 0), yet key derivation yields different series keys ("x:ts:-4"
vs "x:ts:3") and different counter keys, because the code's buckets are
multiples of the width since Go's zero time, ≡ 3 (mod 7) in Unix
seconds, so a bucket boundary falls between 2 s and 3 s. -/
theorem bucket_determinism_cex :
    Int.fdiv (goUnix 2000000000) 7 = Int.fdiv (goUnix 3000000000) 7 ∧
    makeKey (NewTimeSeries "x" 7000000000 0) (NewTimeSeries "x" 7000000000 0).seriesKey
        2000000000 ≠
      makeKey (NewTimeSeries "x" 7000000000 0) (NewTimeSeries "x" 7000000000 0).seriesKey
        3000000000 ∧
    makeKey (NewTimeSeries "x" 7000000000 0) (NewTimeSeries "x" 7000000000 0).counterKey
        2000000000 ≠
      makeKey (NewTimeSeries "x" 7000000000 0) (NewTimeSeries "x" 7000000000 0).counterKey
        3000000000 := by
  refine ⟨by decide, by decide, by decide⟩

/-- Claim C1: recording k events at an instant t with no store errors
succeeds, and Range(t, t) then returns total k with no error; moreover
that degenerate range issues exactly one count query, against the
series key of the bucket containing t. -/
theorem count_conservation (nm : String) (w ttl t : Int) (k : Nat) (hw : 0 < w) :
    (IncreaseAtTime (NewTimeSeries nm w ttl) noFault (k : Int) t initState).1 = none ∧
    (Range (NewTimeSeries nm w ttl) noFault t t
      (IncreaseAtTime (NewTimeSeries nm w ttl) noFault (k : Int) t initState).2).1 =
        ((k : Int), none) ∧
    (Range (NewTimeSeries nm w ttl) noFault t t
      (IncreaseAtTime (NewTimeSeries nm w ttl) noFault (k : Int) t initState).2).2.log =
      (IncreaseAtTime (NewTimeSeries nm w ttl) noFault (k : Int) t initState).2.log ++
        [Call.zcount (makeKey (NewTimeSeries nm w ttl) (NewTimeSeries nm w ttl).seriesKey t)
          (goUnix t) (goUnix t)] := by
  set ts := NewTimeSeries nm w ttl with hts
  have hrun : IncreaseAtTime ts noFault (k : Int) t initState =
      (none, goodSteps ts t k initState) := by
    rw [IncreaseAtTime, Int.toNat_natCast]
    exact increaseLoop_noFault_eq ts noFault t k initState (fun j _ => rfl)
  rw [hrun]
  have hcount : zcountList (goUnix t) (goUnix t)
      ((goodSteps ts t k initState).store.series (makeKey ts ts.seriesKey t)) = (k : Int) := by
    rw [goodSteps_series_self]
    show zcountList _ _ (zaddN ts.name (goUnix t) 0 k []) = _
    rw [zaddN_fresh ts.name (goUnix t) k 0 [] (by simp)]
    rw [List.nil_append]
    exact zcountList_recordEntries (le_refl _) (le_refl _) ts.name k 0
  have hR : Range ts noFault t t (goodSteps ts t k initState) =
      (((k : Int), none),
       { goodSteps ts t k initState with
         log := (goodSteps ts t k initState).log ++
           [Call.zcount (makeKey ts ts.seriesKey t) (goUnix t) (goUnix t)] }) := by
    rw [Range, if_neg (lt_irrefl t)]
    rw [rangeLoop_succ ts noFault t t _ _ 0 _ rfl]
    rw [if_pos (lt_goTruncate_add (show (0:Int) < ts.timestep from hw) t)]
    rw [makeKey_goTruncate, hcount, zero_add]
  rw [hR]
  exact ⟨rfl, rfl, rfl⟩

/-- Witness: count_conservation applied at concrete inputs. -/
theorem count_conservation_witness :
    (0 : Int) < 1000000000 ∧
    ((IncreaseAtTime (NewTimeSeries "x" 1000000000 0) noFault ((2 : Nat) : Int) 0 initState).1 =
        none ∧
      (Range (NewTimeSeries "x" 1000000000 0) noFault 0 0
        (IncreaseAtTime (NewTimeSeries "x" 1000000000 0) noFault ((2 : Nat) : Int) 0
          initState).2).1 = (((2 : Nat) : Int), none) ∧
      (Range (NewTimeSeries "x" 1000000000 0) noFault 0 0
        (IncreaseAtTime (NewTimeSeries "x" 1000000000 0) noFault ((2 : Nat) : Int) 0
          initState).2).2.log =
        (IncreaseAtTime (NewTimeSeries "x" 1000000000 0) noFault ((2 : Nat) : Int) 0
          initState).2.log ++
          [Call.zcount
            (makeKey (NewTimeSeries "x" 1000000000 0) (NewTimeSeries "x" 1000000000 0).seriesKey 0)
            (goUnix 0) (goUnix 0)]) :=
  ⟨by decide, count_conservation "x" 1000000000 0 0 2 (by decide)⟩

/-- Claim C6: under a schedule that fails the atomic increment of unit
i (the first i−1 units succeed; each successful unit issues four store
calls, so unit i's increment is call 4(i−1)), IncreaseAtTime returns
exactly that store error; the log is the i−1 complete units followed
only by the failed Incr and the counter-key Expire the code issues
before checking the error — no series-set add is attempted for unit i,
exactly i−1 series-set adds have occurred, and the i−1 previously
recorded units remain recorded in the series set (no rollback). -/
theorem increment_failure (nm : String) (w ttl t amount : Int) (i : Nat)
    (h1 : 1 ≤ i) (h2 : (i : Int) ≤ amount) (ck sk : String)
    (hck : ck = makeKey (NewTimeSeries nm w ttl) (NewTimeSeries nm w ttl).counterKey t)
    (hsk : sk = makeKey (NewTimeSeries nm w ttl) (NewTimeSeries nm w ttl).seriesKey t) :
    (IncreaseAtTime (NewTimeSeries nm w ttl) (fun n => decide (n = 4*(i-1))) amount t
        initState).1 = some (GoErr.storeFail (4*(i-1)) (Call.incr ck)) ∧
    (IncreaseAtTime (NewTimeSeries nm w ttl) (fun n => decide (n = 4*(i-1))) amount t
        initState).2.log =
      unitCalls ck sk nm (goUnix t) (durSeconds ttl) 0 (i-1) ++
        [Call.incr ck, Call.expire ck (durSeconds ttl)] ∧
    (IncreaseAtTime (NewTimeSeries nm w ttl) (fun n => decide (n = 4*(i-1))) amount t
        initState).2.log.countP isZAdd = i - 1 ∧
    (IncreaseAtTime (NewTimeSeries nm w ttl) (fun n => decide (n = 4*(i-1))) amount t
        initState).2.store.series sk = recordEntries nm (goUnix t) 0 (i-1) ∧
    (IncreaseAtTime (NewTimeSeries nm w ttl) (fun n => decide (n = 4*(i-1))) amount t
        initState).2.store.counters ck = (i : Int) - 1 := by
  subst hck hsk
  obtain ⟨r, hr⟩ : ∃ r, amount.toNat = (i-1) + (r + 1) := ⟨amount.toNat - i, by omega⟩
  have hpre : ∀ j, j < 4 * (i-1) →
      (fun n => decide (n = 4*(i-1))) (initState.log.length + j) = false := by
    intro j hj
    simp [initState]
    omega
  have hlen : (goodSteps (NewTimeSeries nm w ttl) t (i-1) initState).log.length = 4*(i-1) := by
    rw [goodSteps_log]
    simp [initState, unitCalls_length]
  have hstep : increaseLoop (NewTimeSeries nm w ttl) (fun n => decide (n = 4*(i-1))) t (r+1)
      (goodSteps (NewTimeSeries nm w ttl) t (i-1) initState) =
      (some (GoErr.storeFail (4*(i-1))
          (Call.incr (makeKey (NewTimeSeries nm w ttl) (NewTimeSeries nm w ttl).counterKey t))),
       { goodSteps (NewTimeSeries nm w ttl) t (i-1) initState with
         log := (goodSteps (NewTimeSeries nm w ttl) t (i-1) initState).log ++
           [Call.incr (makeKey (NewTimeSeries nm w ttl) (NewTimeSeries nm w ttl).counterKey t),
            Call.expire
              (makeKey (NewTimeSeries nm w ttl) (NewTimeSeries nm w ttl).counterKey t)
              (durSeconds (NewTimeSeries nm w ttl).ttl)] }) := by
    rw [increaseLoop]
    simp [callIncr, callExpire, hlen, List.append_assoc]
  have hfull : IncreaseAtTime (NewTimeSeries nm w ttl) (fun n => decide (n = 4*(i-1))) amount t
      initState =
      (some (GoErr.storeFail (4*(i-1))
          (Call.incr (makeKey (NewTimeSeries nm w ttl) (NewTimeSeries nm w ttl).counterKey t))),
       { goodSteps (NewTimeSeries nm w ttl) t (i-1) initState with
         log := (goodSteps (NewTimeSeries nm w ttl) t (i-1) initState).log ++
           [Call.incr (makeKey (NewTimeSeries nm w ttl) (NewTimeSeries nm w ttl).counterKey t),
            Call.expire
              (makeKey (NewTimeSeries nm w ttl) (NewTimeSeries nm w ttl).counterKey t)
              (durSeconds (NewTimeSeries nm w ttl).ttl)] }) := by
    rw [IncreaseAtTime, hr,
      increaseLoop_split (NewTimeSeries nm w ttl) (fun n => decide (n = 4*(i-1))) t (i-1) (r+1)
        initState hpre, hstep]
  rw [hfull]
  refine ⟨rfl, ?_, ?_, ?_, ?_⟩
  · show (goodSteps (NewTimeSeries nm w ttl) t (i-1) initState).log ++ _ = _
    rw [goodSteps_log]
    rfl
  · show ((goodSteps (NewTimeSeries nm w ttl) t (i-1) initState).log ++ _).countP isZAdd = _
    rw [goodSteps_log]
    rw [show initState.log = ([] : List Call) from rfl, List.nil_append, List.countP_append,
      unitCalls_countZAdd]
    simp [List.countP_cons, isZAdd]
  · show (goodSteps (NewTimeSeries nm w ttl) t (i-1) initState).store.series _ = _
    rw [goodSteps_series_self]
    show zaddN nm (goUnix t) 0 (i-1) [] = _
    rw [zaddN_fresh nm (goUnix t) (i-1) 0 [] (by simp)]
    rw [List.nil_append]
  · show (goodSteps (NewTimeSeries nm w ttl) t (i-1) initState).store.counters _ = _
    rw [goodSteps_counters_self]
    show (0 : Int) + ((i-1 : Nat) : Int) = (i : Int) - 1
    omega

/-- Witness: increment_failure applied at concrete inputs (the very
first increment of a 3-unit recording fails). -/
theorem increment_failure_witness :
    1 ≤ 1 ∧ ((1:Nat) : Int) ≤ 3 ∧
    ("x:counter:0" : String) =
      makeKey (NewTimeSeries "x" 1000000000 0) (NewTimeSeries "x" 1000000000 0).counterKey 0 ∧
    ("x:ts:0" : String) =
      makeKey (NewTimeSeries "x" 1000000000 0) (NewTimeSeries "x" 1000000000 0).seriesKey 0 ∧
    ((IncreaseAtTime (NewTimeSeries "x" 1000000000 0) (fun n => decide (n = 4*(1-1))) 3 0
        initState).1 = some (GoErr.storeFail (4*(1-1)) (Call.incr "x:counter:0")) ∧
      (IncreaseAtTime (NewTimeSeries "x" 1000000000 0) (fun n => decide (n = 4*(1-1))) 3 0
          initState).2.log =
        unitCalls "x:counter:0" "x:ts:0" "x" (goUnix 0) (durSeconds 0) 0 (1-1) ++
          [Call.incr "x:counter:0", Call.expire "x:counter:0" (durSeconds 0)] ∧
      (IncreaseAtTime (NewTimeSeries "x" 1000000000 0) (fun n => decide (n = 4*(1-1))) 3 0
          initState).2.log.countP isZAdd = 1 - 1 ∧
      (IncreaseAtTime (NewTimeSeries "x" 1000000000 0) (fun n => decide (n = 4*(1-1))) 3 0
          initState).2.store.series "x:ts:0" = recordEntries "x" (goUnix 0) 0 (1-1) ∧
      (IncreaseAtTime (NewTimeSeries "x" 1000000000 0) (fun n => decide (n = 4*(1-1))) 3 0
          initState).2.store.counters "x:counter:0" = ((1:Nat) : Int) - 1) :=
  ⟨by decide, by decide, by decide, by decide,
   increment_failure "x" 1000000000 0 0 3 1 (by decide) (by decide) "x:counter:0" "x:ts:0"
     (by decide) (by decide)⟩

/-- Claim C7: under a schedule that fails the series-set add of unit i
(call 4(i−1)+2: the unit's Incr and counter-key Expire preceded it),
IncreaseAtTime returns exactly that store error immediately: the log
ends at the failed ZAdd (no series-key Expire for that unit), the
unit's counter is left incremented at i, but its event "<name>:<i>" is
absent from the series set, which still holds exactly the i−1 earlier
events — the accepted counter/series inconsistency. -/
theorem series_add_failure (nm : String) (w ttl t amount : Int) (i : Nat)
    (h1 : 1 ≤ i) (h2 : (i : Int) ≤ amount) (ck sk : String)
    (hck : ck = makeKey (NewTimeSeries nm w ttl) (NewTimeSeries nm w ttl).counterKey t)
    (hsk : sk = makeKey (NewTimeSeries nm w ttl) (NewTimeSeries nm w ttl).seriesKey t) :
    (IncreaseAtTime (NewTimeSeries nm w ttl) (fun n => decide (n = 4*(i-1)+2)) amount t
        initState).1 =
      some (GoErr.storeFail (4*(i-1)+2)
        (Call.zadd sk (goUnix t) (nm ++ ":" ++ intRepr ((i : Nat) : Int)))) ∧
    (IncreaseAtTime (NewTimeSeries nm w ttl) (fun n => decide (n = 4*(i-1)+2)) amount t
        initState).2.log =
      unitCalls ck sk nm (goUnix t) (durSeconds ttl) 0 (i-1) ++
        [Call.incr ck, Call.expire ck (durSeconds ttl),
         Call.zadd sk (goUnix t) (nm ++ ":" ++ intRepr ((i : Nat) : Int))] ∧
    (IncreaseAtTime (NewTimeSeries nm w ttl) (fun n => decide (n = 4*(i-1)+2)) amount t
        initState).2.store.counters ck = ((i : Nat) : Int) ∧
    (IncreaseAtTime (NewTimeSeries nm w ttl) (fun n => decide (n = 4*(i-1)+2)) amount t
        initState).2.store.series sk = recordEntries nm (goUnix t) 0 (i-1) ∧
    (nm ++ ":" ++ intRepr ((i : Nat) : Int)) ∉
      ((IncreaseAtTime (NewTimeSeries nm w ttl) (fun n => decide (n = 4*(i-1)+2)) amount t
        initState).2.store.series sk).map Prod.snd := by
  subst hck hsk
  obtain ⟨r, hr⟩ : ∃ r, amount.toNat = (i-1) + (r + 1) := ⟨amount.toNat - i, by omega⟩
  have hpre : ∀ j, j < 4 * (i-1) →
      (fun n => decide (n = 4*(i-1)+2)) (initState.log.length + j) = false := by
    intro j hj
    simp [initState]
    omega
  have hlen : (goodSteps (NewTimeSeries nm w ttl) t (i-1) initState).log.length = 4*(i-1) := by
    rw [goodSteps_log]
    simp [initState, unitCalls_length]
  have e0 : decide (4*(i-1) = 4*(i-1)+2) = false := by simp
  have e1 : decide (4*(i-1)+1 = 4*(i-1)+2) = false := by
    rw [decide_eq_false_iff_not]
    omega
  have e2 : decide (4*(i-1)+2 = 4*(i-1)+2) = true := by simp
  have hc1 : (goodSteps (NewTimeSeries nm w ttl) t (i-1) initState).store.counters
      (makeKey (NewTimeSeries nm w ttl) (NewTimeSeries nm w ttl).counterKey t) =
        ((i-1 : Nat) : Int) := by
    rw [goodSteps_counters_self]
    show (0 : Int) + ((i-1 : Nat) : Int) = _
    omega
  have hs1 : ((i-1 : Nat) : Int) + 1 = ((i : Nat) : Int) := by omega
  have hfull : IncreaseAtTime (NewTimeSeries nm w ttl) (fun n => decide (n = 4*(i-1)+2)) amount t
      initState =
      (some (GoErr.storeFail (4*(i-1)+2)
          (Call.zadd (makeKey (NewTimeSeries nm w ttl) (NewTimeSeries nm w ttl).seriesKey t)
            (goUnix t) ((NewTimeSeries nm w ttl).name ++ ":" ++ intRepr ((i : Nat) : Int)))),
       ⟨⟨Function.update
           (goodSteps (NewTimeSeries nm w ttl) t (i-1) initState).store.counters
           (makeKey (NewTimeSeries nm w ttl) (NewTimeSeries nm w ttl).counterKey t)
           ((i : Nat) : Int),
         (goodSteps (NewTimeSeries nm w ttl) t (i-1) initState).store.series⟩,
        (goodSteps (NewTimeSeries nm w ttl) t (i-1) initState).log ++
          [Call.incr (makeKey (NewTimeSeries nm w ttl) (NewTimeSeries nm w ttl).counterKey t),
           Call.expire
             (makeKey (NewTimeSeries nm w ttl) (NewTimeSeries nm w ttl).counterKey t)
             (durSeconds (NewTimeSeries nm w ttl).ttl),
           Call.zadd (makeKey (NewTimeSeries nm w ttl) (NewTimeSeries nm w ttl).seriesKey t)
             (goUnix t)
             ((NewTimeSeries nm w ttl).name ++ ":" ++ intRepr ((i : Nat) : Int))]⟩) := by
    rw [IncreaseAtTime, hr,
      increaseLoop_split (NewTimeSeries nm w ttl) (fun n => decide (n = 4*(i-1)+2)) t (i-1)
        (r+1) initState hpre]
    rw [increaseLoop]
    simp [callIncr, callExpire, callZAdd, hlen, e0, e1, e2, hc1, hs1, List.append_assoc]
  have hser : (goodSteps (NewTimeSeries nm w ttl) t (i-1) initState).store.series
      (makeKey (NewTimeSeries nm w ttl) (NewTimeSeries nm w ttl).seriesKey t) =
        recordEntries nm (goUnix t) 0 (i-1) := by
    rw [goodSteps_series_self]
    show zaddN nm (goUnix t) 0 (i-1) [] = _
    rw [zaddN_fresh nm (goUnix t) (i-1) 0 [] (by simp)]
    rw [List.nil_append]
  rw [hfull]
  refine ⟨rfl, ?_, ?_, ?_, ?_⟩
  · show (goodSteps (NewTimeSeries nm w ttl) t (i-1) initState).log ++ _ = _
    rw [goodSteps_log]
    rfl
  · show Function.update _ _ _ _ = _
    rw [Function.update_same]
  · exact hser
  · show _ ∉ ((goodSteps (NewTimeSeries nm w ttl) t (i-1) initState).store.series _).map Prod.snd
    rw [hser]
    intro hmem
    rcases mem_recordEntries hmem with ⟨j, hj1, hj2, hj3⟩
    exact member_ne_of_id_ne (show ((i : Nat) : Int) ≠ j by omega) hj3

/-- Witness: series_add_failure applied at concrete inputs (the
series-set add of the first of 2 units fails). -/
theorem series_add_failure_witness :
    1 ≤ 1 ∧ ((1:Nat) : Int) ≤ 2 ∧
    ("x:counter:0" : String) =
      makeKey (NewTimeSeries "x" 1000000000 0) (NewTimeSeries "x" 1000000000 0).counterKey 0 ∧
    ("x:ts:0" : String) =
      makeKey (NewTimeSeries "x" 1000000000 0) (NewTimeSeries "x" 1000000000 0).seriesKey 0 ∧
    ((IncreaseAtTime (NewTimeSeries "x" 1000000000 0) (fun n => decide (n = 4*(1-1)+2)) 2 0
        initState).1 =
      some (GoErr.storeFail (4*(1-1)+2)
        (Call.zadd "x:ts:0" (goUnix 0) ("x" ++ ":" ++ intRepr ((1 : Nat) : Int)))) ∧
    (IncreaseAtTime (NewTimeSeries "x" 1000000000 0) (fun n => decide (n = 4*(1-1)+2)) 2 0
        initState).2.log =
      unitCalls "x:counter:0" "x:ts:0" "x" (goUnix 0) (durSeconds 0) 0 (1-1) ++
        [Call.incr "x:counter:0", Call.expire "x:counter:0" (durSeconds 0),
         Call.zadd "x:ts:0" (goUnix 0) ("x" ++ ":" ++ intRepr ((1 : Nat) : Int))] ∧
    (IncreaseAtTime (NewTimeSeries "x" 1000000000 0) (fun n => decide (n = 4*(1-1)+2)) 2 0
        initState).2.store.counters "x:counter:0" = ((1 : Nat) : Int) ∧
    (IncreaseAtTime (NewTimeSeries "x" 1000000000 0) (fun n => decide (n = 4*(1-1)+2)) 2 0
        initState).2.store.series "x:ts:0" = recordEntries "x" (goUnix 0) 0 (1-1) ∧
    ("x" ++ ":" ++ intRepr ((1 : Nat) : Int)) ∉
      ((IncreaseAtTime (NewTimeSeries "x" 1000000000 0) (fun n => decide (n = 4*(1-1)+2)) 2 0
        initState).2.store.series "x:ts:0").map Prod.snd) :=
  ⟨by decide, by decide, by decide, by decide,
   series_add_failure "x" 1000000000 0 0 2 1 (by decide) (by decide) "x:counter:0" "x:ts:0"
     (by decide) (by decide)⟩

/-- Claim C3 (amended): bucket assignment is the pure function
t.Truncate(width) — rounding down to a multiple of the width since Go's
zero time, not floor(t/width)·width from the Unix epoch.  For any two
instants in the same such bucket (equal floor((t+offset)/width), offset
= 62135596800 s in nanoseconds), key derivation yields identical keys
for every prefix (so identical counter and series keys), and an event
recorded at t1 is included in a Range over t2's bucket: with no faults,
Range(B, B+width) over the state after recording one event at t1, where
B is t2's bucket start, returns no error and a total of at least 1. -/
theorem bucket_determinism (nm : String) (w ttl t1 t2 : Int) (hw : 0 < w)
    (hb : (t1 + zeroTimeOffNs) / w = (t2 + zeroTimeOffNs) / w) :
    (∀ pfx : String,
      makeKey (NewTimeSeries nm w ttl) pfx t1 = makeKey (NewTimeSeries nm w ttl) pfx t2) ∧
    (Range (NewTimeSeries nm w ttl) noFault (goTruncate w t2) (goTruncate w t2 + w)
        (IncreaseAtTime (NewTimeSeries nm w ttl) noFault 1 t1 initState).2).1.2 = none ∧
    1 ≤ (Range (NewTimeSeries nm w ttl) noFault (goTruncate w t2) (goTruncate w t2 + w)
        (IncreaseAtTime (NewTimeSeries nm w ttl) noFault 1 t1 initState).2).1.1 := by
  have hT : (NewTimeSeries nm w ttl).timestep = w := rfl
  have htr : goTruncate w t1 = goTruncate w t2 := by
    rw [goTruncate_eq_mul hw t1, goTruncate_eq_mul hw t2, hb]
  have hkey : ∀ pfx : String,
      makeKey (NewTimeSeries nm w ttl) pfx t1 = makeKey (NewTimeSeries nm w ttl) pfx t2 := by
    intro pfx
    show pfx ++ ":" ++ intRepr (goUnix (goTruncate w t1)) = _
    rw [htr]
    rfl
  have hrun : IncreaseAtTime (NewTimeSeries nm w ttl) noFault 1 t1 initState =
      (none, goodSteps (NewTimeSeries nm w ttl) t1 1 initState) :=
    increaseLoop_noFault_eq (NewTimeSeries nm w ttl) noFault t1 1 initState (fun j _ => rfl)
  have hsnd : (IncreaseAtTime (NewTimeSeries nm w ttl) noFault 1 t1 initState).2 =
      goodSteps (NewTimeSeries nm w ttl) t1 1 initState := by rw [hrun]
  have hser : (goodSteps (NewTimeSeries nm w ttl) t1 1 initState).store.series
      (makeKey (NewTimeSeries nm w ttl) (NewTimeSeries nm w ttl).seriesKey t1) =
      recordEntries nm (goUnix t1) 0 1 := by
    rw [goodSteps_series_self]
    show zaddN nm (goUnix t1) 0 1 [] = _
    rw [zaddN_fresh nm (goUnix t1) 1 0 [] (by simp), List.nil_append]
  have hmk1 : makeKey (NewTimeSeries nm w ttl) (NewTimeSeries nm w ttl).seriesKey
      (goTruncate w t1) = makeKey (NewTimeSeries nm w ttl) (NewTimeSeries nm w ttl).seriesKey t1 :=
    makeKey_goTruncate (NewTimeSeries nm w ttl) (NewTimeSeries nm w ttl).seriesKey t1
  have hkeyB : makeKey (NewTimeSeries nm w ttl) (NewTimeSeries nm w ttl).seriesKey
      (goTruncate w t2) = makeKey (NewTimeSeries nm w ttl) (NewTimeSeries nm w ttl).seriesKey t1 := by
    rw [← htr]
    exact hmk1
  have hser2 : (goodSteps (NewTimeSeries nm w ttl) t1 1 initState).store.series
      (makeKey (NewTimeSeries nm w ttl) (NewTimeSeries nm w ttl).seriesKey (goTruncate w t2)) =
      recordEntries nm (goUnix t1) 0 1 := by
    rw [hkeyB, hser]
  have hle1 : goUnix (goTruncate w t2) ≤ goUnix t1 := by
    rw [← htr]
    exact goUnix_mono (goTruncate_le hw t1)
  have hle2 : goUnix t1 ≤ goUnix (goTruncate w t2 + w) := by
    rw [← htr]
    exact goUnix_mono (le_of_lt (lt_goTruncate_add hw t1))
  have hcount1 : zcountList (goUnix (goTruncate w t2)) (goUnix (goTruncate w t2 + w))
      (recordEntries nm (goUnix t1) 0 1) = (1 : Int) :=
    zcountList_recordEntries hle1 hle2 nm 1 0
  have hfuel : ((goTruncate w t2 + w - goTruncate w (goTruncate w t2)) / w).toNat = 0 + 1 := by
    rw [goTruncate_goTruncate hw t2]
    rw [show goTruncate w t2 + w - goTruncate w t2 = w by ring]
    rw [Int.ediv_self (by omega : w ≠ 0)]
    rfl
  have hR : Range (NewTimeSeries nm w ttl) noFault (goTruncate w t2) (goTruncate w t2 + w)
      (goodSteps (NewTimeSeries nm w ttl) t1 1 initState) =
      (((0 + 1) + zcountList (goUnix (goTruncate w t2)) (goUnix (goTruncate w t2 + w))
          ((goodSteps (NewTimeSeries nm w ttl) t1 1 initState).store.series
            (makeKey (NewTimeSeries nm w ttl) (NewTimeSeries nm w ttl).seriesKey
              (goTruncate w t2 + w))), none),
       { store := (goodSteps (NewTimeSeries nm w ttl) t1 1 initState).store
         log := ((goodSteps (NewTimeSeries nm w ttl) t1 1 initState).log ++
             [Call.zcount
               (makeKey (NewTimeSeries nm w ttl) (NewTimeSeries nm w ttl).seriesKey
                 (goTruncate w t2))
               (goUnix (goTruncate w t2)) (goUnix (goTruncate w t2 + w))]) ++
           [Call.zcount
             (makeKey (NewTimeSeries nm w ttl) (NewTimeSeries nm w ttl).seriesKey
               (goTruncate w t2 + w))
             (goUnix (goTruncate w t2)) (goUnix (goTruncate w t2 + w))] }) := by
    rw [Range]
    rw [if_neg (show ¬ (goTruncate w t2 + w < goTruncate w t2) by omega)]
    rw [hT, hfuel]
    rw [rangeLoop_succ (NewTimeSeries nm w ttl) noFault (goTruncate w t2) (goTruncate w t2 + w)
      (0 + 1) (goTruncate w (goTruncate w t2)) 0
      (goodSteps (NewTimeSeries nm w ttl) t1 1 initState) rfl]
    rw [hT, goTruncate_goTruncate hw t2]
    rw [if_neg (show ¬ (goTruncate w t2 + w > goTruncate w t2 + w) by omega)]
    rw [hser2, hcount1]
    rw [rangeLoop_succ (NewTimeSeries nm w ttl) noFault (goTruncate w t2) (goTruncate w t2 + w)
      0 (goTruncate w t2 + w) (0 + 1) _ rfl]
    rw [hT]
    rw [if_pos (show goTruncate w t2 + w + w > goTruncate w t2 + w by omega)]
  refine ⟨hkey, ?_, ?_⟩
  · rw [hsnd, hR]
  · rw [hsnd, hR]
    have := zcountList_nonneg (goUnix (goTruncate w t2)) (goUnix (goTruncate w t2 + w))
      ((goodSteps (NewTimeSeries nm w ttl) t1 1 initState).store.series
        (makeKey (NewTimeSeries nm w ttl) (NewTimeSeries nm w ttl).seriesKey
          (goTruncate w t2 + w)))
    show (1 : Int) ≤ (0 + 1) + zcountList (goUnix (goTruncate w t2))
      (goUnix (goTruncate w t2 + w))
      ((goodSteps (NewTimeSeries nm w ttl) t1 1 initState).store.series
        (makeKey (NewTimeSeries nm w ttl) (NewTimeSeries nm w ttl).seriesKey
          (goTruncate w t2 + w)))
    omega

/-- Witness: bucket_determinism applied at concrete inputs (t1 = 3 s
and t2 = 4 s lie in the same 7-second Go bucket [3 s, 10 s)). -/
theorem bucket_determinism_witness :
    (0 : Int) < 7000000000 ∧
    ((3000000000 : Int) + zeroTimeOffNs) / 7000000000 =
      ((4000000000 : Int) + zeroTimeOffNs) / 7000000000 ∧
    ((∀ pfx : String,
      makeKey (NewTimeSeries "x" 7000000000 0) pfx 3000000000 =
        makeKey (NewTimeSeries "x" 7000000000 0) pfx 4000000000) ∧
    (Range (NewTimeSeries "x" 7000000000 0) noFault (goTruncate 7000000000 4000000000)
        (goTruncate 7000000000 4000000000 + 7000000000)
        (IncreaseAtTime (NewTimeSeries "x" 7000000000 0) noFault 1 3000000000
          initState).2).1.2 = none ∧
    1 ≤ (Range (NewTimeSeries "x" 7000000000 0) noFault (goTruncate 7000000000 4000000000)
        (goTruncate 7000000000 4000000000 + 7000000000)
        (IncreaseAtTime (NewTimeSeries "x" 7000000000 0) noFault 1 3000000000
          initState).2).1.1) :=
  ⟨by decide, by decide,
   bucket_determinism "x" 7000000000 0 3000000000 4000000000 (by decide) (by decide)⟩

/-- Claim C4, counterexample: with a sub-second width of 1000 ns and
t0 = 0 (bucket-aligned: Truncate(1000 ns) fixes 0), recording 3 events
at t0, 5 at t0+width and 2 at t0+2·width (no store errors), then
Range(t0, t0+2·width) returns 30, not 10: the three buckets' keys are
derived from Unix *seconds*, so all three collapse to "x:ts:0" and the
loop counts the same 10 events three times. -/
theorem cross_bucket_sum_cex :
    (0 : Int) < 1000 ∧ goTruncate 1000 0 = 0 ∧
    (IncreaseAtTime (NewTimeSeries "x" 1000 0) noFault 3 0 initState).1 = none ∧
    (IncreaseAtTime (NewTimeSeries "x" 1000 0) noFault 5 1000
      (IncreaseAtTime (NewTimeSeries "x" 1000 0) noFault 3 0 initState).2).1 = none ∧
    (IncreaseAtTime (NewTimeSeries "x" 1000 0) noFault 2 2000
      (IncreaseAtTime (NewTimeSeries "x" 1000 0) noFault 5 1000
        (IncreaseAtTime (NewTimeSeries "x" 1000 0) noFault 3 0 initState).2).2).1 = none ∧
    (Range (NewTimeSeries "x" 1000 0) noFault 0 2000
      (IncreaseAtTime (NewTimeSeries "x" 1000 0) noFault 2 2000
        (IncreaseAtTime (NewTimeSeries "x" 1000 0) noFault 5 1000
          (IncreaseAtTime (NewTimeSeries "x" 1000 0) noFault 3 0 initState).2).2).2).1 =
      (30, none) ∧
    ((30 : Int), (none : Option GoErr)) ≠ ((10 : Int), none) := by
  refine ⟨by decide, by decide, by decide, by decide, by decide, by decide, by decide⟩

/-- Claim C4 (amended): for a bucket width that is a whole positive
number of seconds and a bucket-aligned t0 (aligned per the code's
Truncate-based bucketing), recording 3 events at t0, 5 at t0+w and 2 at
t0+2w with no store errors succeeds, and Range(t0, t0+2w) returns
exactly 10 with no error, issuing exactly one count query per bucket
across the 3 buckets inclusive.  (For sub-second widths the claim fails
— see the counterexample — because distinct buckets can share the same
seconds-based key and the loop then counts events repeatedly.) -/
theorem cross_bucket_sum (nm : String) (w ttl t0 : Int) (st1 st2 st3 : RedisState)
    (hw : 0 < w) (hsec : nsPerSec ∣ w) (hal : goTruncate w t0 = t0)
    (hst1 : (IncreaseAtTime (NewTimeSeries nm w ttl) noFault 3 t0 initState).2 = st1)
    (hst2 : (IncreaseAtTime (NewTimeSeries nm w ttl) noFault 5 (t0 + w) st1).2 = st2)
    (hst3 : (IncreaseAtTime (NewTimeSeries nm w ttl) noFault 2 (t0 + 2*w) st2).2 = st3) :
    (IncreaseAtTime (NewTimeSeries nm w ttl) noFault 3 t0 initState).1 = none ∧
    (IncreaseAtTime (NewTimeSeries nm w ttl) noFault 5 (t0 + w) st1).1 = none ∧
    (IncreaseAtTime (NewTimeSeries nm w ttl) noFault 2 (t0 + 2*w) st2).1 = none ∧
    (Range (NewTimeSeries nm w ttl) noFault t0 (t0 + 2*w) st3).1 = (10, none) ∧
    (Range (NewTimeSeries nm w ttl) noFault t0 (t0 + 2*w) st3).2.log =
      st3.log ++
        [Call.zcount (makeKey (NewTimeSeries nm w ttl) (NewTimeSeries nm w ttl).seriesKey t0)
           (goUnix t0) (goUnix (t0 + 2*w)),
         Call.zcount
           (makeKey (NewTimeSeries nm w ttl) (NewTimeSeries nm w ttl).seriesKey (t0 + w))
           (goUnix t0) (goUnix (t0 + 2*w)),
         Call.zcount
           (makeKey (NewTimeSeries nm w ttl) (NewTimeSeries nm w ttl).seriesKey (t0 + 2*w))
           (goUnix t0) (goUnix (t0 + 2*w))] := by
  have hT : (NewTimeSeries nm w ttl).timestep = w := rfl
  obtain ⟨wS, hws⟩ := hsec
  have hws' : w = 1000000000 * wS := hws
  have hwS : 0 < wS := by omega
  have hoff : w ∣ (t0 + zeroTimeOffNs) := by
    have h := goTruncate_dvd hw t0
    rw [hal] at h
    exact h
  have hal1 : goTruncate w (t0 + w) = t0 + w := goTruncate_add_step hw hoff
  have hoff1 : w ∣ (t0 + w + zeroTimeOffNs) := by
    have h := goTruncate_dvd hw (t0 + w)
    rw [hal1] at h
    exact h
  have hal2 : goTruncate w (t0 + 2*w) = t0 + 2*w := by
    rw [show t0 + 2*w = t0 + w + w by ring]
    exact goTruncate_add_step hw hoff1
  have hu1 : goUnix (t0 + w) = goUnix t0 + wS := by
    rw [hws']
    show (t0 + 1000000000 * wS) / (1000000000 : Int) = t0 / (1000000000 : Int) + wS
    rw [show t0 + 1000000000 * wS = t0 + wS * 1000000000 by ring]
    exact Int.add_mul_ediv_right t0 wS (by omega)
  have hu2 : goUnix (t0 + 2*w) = goUnix t0 + 2*wS := by
    rw [hws']
    show (t0 + 2*(1000000000 * wS)) / (1000000000 : Int) = t0 / (1000000000 : Int) + 2*wS
    rw [show t0 + 2*(1000000000 * wS) = t0 + (2*wS) * 1000000000 by ring]
    exact Int.add_mul_ediv_right t0 (2*wS) (by omega)
  have hga : goUnix (goTruncate w t0) = goUnix t0 := by rw [hal]
  have hgb : goUnix (goTruncate w (t0 + w)) = goUnix t0 + wS := by rw [hal1, hu1]
  have hgc : goUnix (goTruncate w (t0 + 2*w)) = goUnix t0 + 2*wS := by rw [hal2, hu2]
  have hsne10 : makeKey (NewTimeSeries nm w ttl) (NewTimeSeries nm w ttl).seriesKey (t0 + w) ≠
      makeKey (NewTimeSeries nm w ttl) (NewTimeSeries nm w ttl).seriesKey t0 :=
    makeKey_ne_of_sec_ne _ _ (by
      show goUnix (goTruncate w (t0 + w)) ≠ goUnix (goTruncate w t0)
      rw [hgb, hga]; omega)
  have hsne01 : makeKey (NewTimeSeries nm w ttl) (NewTimeSeries nm w ttl).seriesKey t0 ≠
      makeKey (NewTimeSeries nm w ttl) (NewTimeSeries nm w ttl).seriesKey (t0 + w) :=
    makeKey_ne_of_sec_ne _ _ (by
      show goUnix (goTruncate w t0) ≠ goUnix (goTruncate w (t0 + w))
      rw [hgb, hga]; omega)
  have hsne20 : makeKey (NewTimeSeries nm w ttl) (NewTimeSeries nm w ttl).seriesKey (t0 + 2*w) ≠
      makeKey (NewTimeSeries nm w ttl) (NewTimeSeries nm w ttl).seriesKey t0 :=
    makeKey_ne_of_sec_ne _ _ (by
      show goUnix (goTruncate w (t0 + 2*w)) ≠ goUnix (goTruncate w t0)
      rw [hgc, hga]; omega)
  have hsne02 : makeKey (NewTimeSeries nm w ttl) (NewTimeSeries nm w ttl).seriesKey t0 ≠
      makeKey (NewTimeSeries nm w ttl) (NewTimeSeries nm w ttl).seriesKey (t0 + 2*w) :=
    makeKey_ne_of_sec_ne _ _ (by
      show goUnix (goTruncate w t0) ≠ goUnix (goTruncate w (t0 + 2*w))
      rw [hgc, hga]; omega)
  have hsne21 : makeKey (NewTimeSeries nm w ttl) (NewTimeSeries nm w ttl).seriesKey (t0 + 2*w) ≠
      makeKey (NewTimeSeries nm w ttl) (NewTimeSeries nm w ttl).seriesKey (t0 + w) :=
    makeKey_ne_of_sec_ne _ _ (by
      show goUnix (goTruncate w (t0 + 2*w)) ≠ goUnix (goTruncate w (t0 + w))
      rw [hgc, hgb]; omega)
  have hsne12 : makeKey (NewTimeSeries nm w ttl) (NewTimeSeries nm w ttl).seriesKey (t0 + w) ≠
      makeKey (NewTimeSeries nm w ttl) (NewTimeSeries nm w ttl).seriesKey (t0 + 2*w) :=
    makeKey_ne_of_sec_ne _ _ (by
      show goUnix (goTruncate w (t0 + w)) ≠ goUnix (goTruncate w (t0 + 2*w))
      rw [hgc, hgb]; omega)
  have hcne10 : makeKey (NewTimeSeries nm w ttl) (NewTimeSeries nm w ttl).counterKey (t0 + w) ≠
      makeKey (NewTimeSeries nm w ttl) (NewTimeSeries nm w ttl).counterKey t0 :=
    makeKey_ne_of_sec_ne _ _ (by
      show goUnix (goTruncate w (t0 + w)) ≠ goUnix (goTruncate w t0)
      rw [hgb, hga]; omega)
  have hcne20 : makeKey (NewTimeSeries nm w ttl) (NewTimeSeries nm w ttl).counterKey (t0 + 2*w) ≠
      makeKey (NewTimeSeries nm w ttl) (NewTimeSeries nm w ttl).counterKey t0 :=
    makeKey_ne_of_sec_ne _ _ (by
      show goUnix (goTruncate w (t0 + 2*w)) ≠ goUnix (goTruncate w t0)
      rw [hgc, hga]; omega)
  have hcne21 : makeKey (NewTimeSeries nm w ttl) (NewTimeSeries nm w ttl).counterKey (t0 + 2*w) ≠
      makeKey (NewTimeSeries nm w ttl) (NewTimeSeries nm w ttl).counterKey (t0 + w) :=
    makeKey_ne_of_sec_ne _ _ (by
      show goUnix (goTruncate w (t0 + 2*w)) ≠ goUnix (goTruncate w (t0 + w))
      rw [hgc, hgb]; omega)
  have hrun1 : IncreaseAtTime (NewTimeSeries nm w ttl) noFault 3 t0 initState =
      (none, goodSteps (NewTimeSeries nm w ttl) t0 3 initState) :=
    increaseLoop_noFault_eq (NewTimeSeries nm w ttl) noFault t0 3 initState (fun j _ => rfl)
  have hrun2 : IncreaseAtTime (NewTimeSeries nm w ttl) noFault 5 (t0 + w) st1 =
      (none, goodSteps (NewTimeSeries nm w ttl) (t0 + w) 5 st1) :=
    increaseLoop_noFault_eq (NewTimeSeries nm w ttl) noFault (t0 + w) 5 st1 (fun j _ => rfl)
  have hrun3 : IncreaseAtTime (NewTimeSeries nm w ttl) noFault 2 (t0 + 2*w) st2 =
      (none, goodSteps (NewTimeSeries nm w ttl) (t0 + 2*w) 2 st2) :=
    increaseLoop_noFault_eq (NewTimeSeries nm w ttl) noFault (t0 + 2*w) 2 st2 (fun j _ => rfl)
  have hG1 : st1 = goodSteps (NewTimeSeries nm w ttl) t0 3 initState := by
    rw [← hst1, hrun1]
  have hG2 : st2 = goodSteps (NewTimeSeries nm w ttl) (t0 + w) 5 st1 := by
    rw [← hst2, hrun2]
  have hG3 : st3 = goodSteps (NewTimeSeries nm w ttl) (t0 + 2*w) 2 st2 := by
    rw [← hst3, hrun3]
  have hS0 : st1.store.series
      (makeKey (NewTimeSeries nm w ttl) (NewTimeSeries nm w ttl).seriesKey t0) =
      recordEntries nm (goUnix t0) 0 3 := by
    rw [hG1, goodSteps_series_self]
    show zaddN nm (goUnix t0) 0 3 [] = _
    rw [zaddN_fresh nm (goUnix t0) 3 0 [] (by simp), List.nil_append]
  have hS1 : st2.store.series
      (makeKey (NewTimeSeries nm w ttl) (NewTimeSeries nm w ttl).seriesKey (t0 + w)) =
      recordEntries nm (goUnix (t0 + w)) 0 5 := by
    rw [hG2, goodSteps_series_self, hG1,
      goodSteps_counters_ne (NewTimeSeries nm w ttl) t0 hcne10 3 initState,
      goodSteps_series_ne (NewTimeSeries nm w ttl) t0 hsne10 3 initState]
    show zaddN nm (goUnix (t0 + w)) 0 5 [] = _
    rw [zaddN_fresh nm (goUnix (t0 + w)) 5 0 [] (by simp), List.nil_append]
  have hS2 : st3.store.series
      (makeKey (NewTimeSeries nm w ttl) (NewTimeSeries nm w ttl).seriesKey (t0 + 2*w)) =
      recordEntries nm (goUnix (t0 + 2*w)) 0 2 := by
    rw [hG3, goodSteps_series_self, hG2,
      goodSteps_counters_ne (NewTimeSeries nm w ttl) (t0 + w) hcne21 5 st1,
      goodSteps_series_ne (NewTimeSeries nm w ttl) (t0 + w) hsne21 5 st1, hG1,
      goodSteps_counters_ne (NewTimeSeries nm w ttl) t0 hcne20 3 initState,
      goodSteps_series_ne (NewTimeSeries nm w ttl) t0 hsne20 3 initState]
    show zaddN nm (goUnix (t0 + 2*w)) 0 2 [] = _
    rw [zaddN_fresh nm (goUnix (t0 + 2*w)) 2 0 [] (by simp), List.nil_append]
  have hS1keep : st3.store.series
      (makeKey (NewTimeSeries nm w ttl) (NewTimeSeries nm w ttl).seriesKey (t0 + w)) =
      recordEntries nm (goUnix (t0 + w)) 0 5 := by
    rw [hG3, goodSteps_series_ne (NewTimeSeries nm w ttl) (t0 + 2*w) hsne12 2 st2]
    exact hS1
  have hS0keep : st3.store.series
      (makeKey (NewTimeSeries nm w ttl) (NewTimeSeries nm w ttl).seriesKey t0) =
      recordEntries nm (goUnix t0) 0 3 := by
    rw [hG3, goodSteps_series_ne (NewTimeSeries nm w ttl) (t0 + 2*w) hsne02 2 st2,
      hG2, goodSteps_series_ne (NewTimeSeries nm w ttl) (t0 + w) hsne01 5 st1]
    exact hS0
  have hcnt0 : zcountList (goUnix t0) (goUnix (t0 + 2*w)) (recordEntries nm (goUnix t0) 0 3) =
      (3 : Int) :=
    zcountList_recordEntries (le_refl _) (by rw [hu2]; omega) nm 3 0
  have hcnt1 : zcountList (goUnix t0) (goUnix (t0 + 2*w))
      (recordEntries nm (goUnix (t0 + w)) 0 5) = (5 : Int) :=
    zcountList_recordEntries (by rw [hu1]; omega) (by rw [hu1, hu2]; omega) nm 5 0
  have hcnt2 : zcountList (goUnix t0) (goUnix (t0 + 2*w))
      (recordEntries nm (goUnix (t0 + 2*w)) 0 2) = (2 : Int) :=
    zcountList_recordEntries (by rw [hu2]; omega) (le_refl _) nm 2 0
  have hfl : ((t0 + 2*w - goTruncate w t0) / w).toNat = (0 + 1) + 1 := by
    rw [hal, show t0 + 2*w - t0 = 2*w by ring, Int.mul_ediv_cancel 2 (by omega : w ≠ 0)]
    rfl
  have hR : Range (NewTimeSeries nm w ttl) noFault t0 (t0 + 2*w) st3 =
      ((((0 + 3) + 5) + 2, none),
       { store := st3.store
         log := ((st3.log ++
             [Call.zcount
               (makeKey (NewTimeSeries nm w ttl) (NewTimeSeries nm w ttl).seriesKey t0)
               (goUnix t0) (goUnix (t0 + 2*w))]) ++
             [Call.zcount
               (makeKey (NewTimeSeries nm w ttl) (NewTimeSeries nm w ttl).seriesKey (t0 + w))
               (goUnix t0) (goUnix (t0 + 2*w))]) ++
           [Call.zcount
             (makeKey (NewTimeSeries nm w ttl) (NewTimeSeries nm w ttl).seriesKey (t0 + 2*w))
             (goUnix t0) (goUnix (t0 + 2*w))] }) := by
    rw [Range]
    rw [if_neg (show ¬ (t0 + 2*w < t0) by omega)]
    rw [hT, hfl, hal]
    rw [rangeLoop_succ (NewTimeSeries nm w ttl) noFault t0 (t0 + 2*w) ((0 + 1) + 1) t0 0 st3
      rfl]
    rw [hT]
    rw [if_neg (show ¬ (t0 + w > t0 + 2*w) by omega)]
    rw [hS0keep, hcnt0]
    rw [rangeLoop_succ (NewTimeSeries nm w ttl) noFault t0 (t0 + 2*w) (0 + 1) (t0 + w) (0 + 3)
      _ rfl]
    rw [hT]
    rw [if_neg (show ¬ (t0 + w + w > t0 + 2*w) by omega)]
    rw [hS1keep, hcnt1]
    rw [show t0 + w + w = t0 + 2*w by ring]
    rw [rangeLoop_succ (NewTimeSeries nm w ttl) noFault t0 (t0 + 2*w) 0 (t0 + 2*w)
      ((0 + 3) + 5) _ rfl]
    rw [hT]
    rw [if_pos (show t0 + 2*w + w > t0 + 2*w by omega)]
    rw [hS2, hcnt2]
  refine ⟨by rw [hrun1], by rw [hrun2], by rw [hrun3], ?_, ?_⟩
  · rw [hR]
    norm_num
  · rw [hR]
    simp [List.append_assoc]

/-- Witness: cross_bucket_sum applied at concrete inputs (a 1-second
width, t0 = 0). -/
theorem cross_bucket_sum_witness :
    (0 : Int) < 1000000000 ∧ nsPerSec ∣ (1000000000 : Int) ∧
    goTruncate 1000000000 0 = 0 ∧
    ((IncreaseAtTime (NewTimeSeries "x" 1000000000 0) noFault 3 0 initState).1 = none ∧
    (IncreaseAtTime (NewTimeSeries "x" 1000000000 0) noFault 5 (0 + 1000000000)
      (IncreaseAtTime (NewTimeSeries "x" 1000000000 0) noFault 3 0 initState).2).1 = none ∧
    (IncreaseAtTime (NewTimeSeries "x" 1000000000 0) noFault 2 (0 + 2*1000000000)
      (IncreaseAtTime (NewTimeSeries "x" 1000000000 0) noFault 5 (0 + 1000000000)
        (IncreaseAtTime (NewTimeSeries "x" 1000000000 0) noFault 3 0
          initState).2).2).1 = none ∧
    (Range (NewTimeSeries "x" 1000000000 0) noFault 0 (0 + 2*1000000000)
      (IncreaseAtTime (NewTimeSeries "x" 1000000000 0) noFault 2 (0 + 2*1000000000)
        (IncreaseAtTime (NewTimeSeries "x" 1000000000 0) noFault 5 (0 + 1000000000)
          (IncreaseAtTime (NewTimeSeries "x" 1000000000 0) noFault 3 0
            initState).2).2).2).1 = (10, none) ∧
    (Range (NewTimeSeries "x" 1000000000 0) noFault 0 (0 + 2*1000000000)
      (IncreaseAtTime (NewTimeSeries "x" 1000000000 0) noFault 2 (0 + 2*1000000000)
        (IncreaseAtTime (NewTimeSeries "x" 1000000000 0) noFault 5 (0 + 1000000000)
          (IncreaseAtTime (NewTimeSeries "x" 1000000000 0) noFault 3 0
            initState).2).2).2).2.log =
      (IncreaseAtTime (NewTimeSeries "x" 1000000000 0) noFault 2 (0 + 2*1000000000)
        (IncreaseAtTime (NewTimeSeries "x" 1000000000 0) noFault 5 (0 + 1000000000)
          (IncreaseAtTime (NewTimeSeries "x" 1000000000 0) noFault 3 0
            initState).2).2).2.log ++
        [Call.zcount
           (makeKey (NewTimeSeries "x" 1000000000 0) (NewTimeSeries "x" 1000000000 0).seriesKey
             0) (goUnix 0) (goUnix (0 + 2*1000000000)),
         Call.zcount
           (makeKey (NewTimeSeries "x" 1000000000 0) (NewTimeSeries "x" 1000000000 0).seriesKey
             (0 + 1000000000)) (goUnix 0) (goUnix (0 + 2*1000000000)),
         Call.zcount
           (makeKey (NewTimeSeries "x" 1000000000 0) (NewTimeSeries "x" 1000000000 0).seriesKey
             (0 + 2*1000000000)) (goUnix 0) (goUnix (0 + 2*1000000000))]) :=
  ⟨by decide, ⟨1, by decide⟩, by decide,
   cross_bucket_sum "x" 1000000000 0 0
     (IncreaseAtTime (NewTimeSeries "x" 1000000000 0) noFault 3 0 initState).2
     (IncreaseAtTime (NewTimeSeries "x" 1000000000 0) noFault 5 (0 + 1000000000)
       (IncreaseAtTime (NewTimeSeries "x" 1000000000 0) noFault 3 0 initState).2).2
     (IncreaseAtTime (NewTimeSeries "x" 1000000000 0) noFault 2 (0 + 2*1000000000)
       (IncreaseAtTime (NewTimeSeries "x" 1000000000 0) noFault 5 (0 + 1000000000)
         (IncreaseAtTime (NewTimeSeries "x" 1000000000 0) noFault 3 0 initState).2).2).2
     (by decide) ⟨1, by decide⟩ (by decide) rfl rfl rfl⟩

end TSModel
